import Mathlib

/-!
# Verification of the `pvgmsh` adapter functions

Shallow embedding of `src/pvgmsh/__init__.py`: the two public adapter
functions `frontal_delaunay_2d` and `delaunay_3d`.  Both adapters drive the
external `gmsh` meshing engine: they emit a sequence of engine calls
(initialize, option setting, geometry registration, meshing, extraction,
clear, finalize) and post-process the extracted mesh.

The engine is external; it is modelled as a deterministic oracle: which
call histories fail, and what mesh the extraction call returns as a
function of the session call history.  `gmsh.initialize()` starts a fresh
session, so it resets the session history regardless of prior state.

Coordinates are modelled as rationals.
-/

set_option autoImplicit false

namespace Pvgmsh

/-- A 3-D point (a row of `edge_source.points`). -/
structure P3 where
  x : ℚ
  y : ℚ
  z : ℚ
deriving DecidableEq, Repr

/-- A quad face (a row of `edge_source.regular_faces`): four 0-based point
indices `face[0] .. face[3]`. -/
structure Face4 where
  a : Nat
  b : Nat
  c : Nat
  d : Nat
deriving DecidableEq, Repr

/-- The input `pyvista.PolyData`: the fields the adapters read.
`lines` is the flat VTK line-connectivity array
`[n, i_0, ..., i_(n-1), m, j_0, ...]`; `regular_faces` the quad faces. -/
structure PolyData where
  points : List P3
  lines : List Nat
  regular_faces : List Face4
deriving DecidableEq, Repr

/-- The `pyvista` bounds tuple `(xmin, xmax, ymin, ymax, zmin, zmax)`. -/
structure Bounds where
  xmin : ℚ
  xmax : ℚ
  ymin : ℚ
  ymax : ℚ
  zmin : ℚ
  zmax : ℚ
deriving DecidableEq, Repr

/-- Model of `edge_source.bounds`: axis-aligned bounding box of the points
(VTK's uninitialized bounds `(1, -1, 1, -1, 1, -1)` for an empty set). -/
def boundsOf : List P3 → Bounds
  | [] => ⟨1, -1, 1, -1, 1, -1⟩
  | p :: rest =>
    rest.foldl
      (fun bx q =>
        ⟨min bx.xmin q.x, max bx.xmax q.x, min bx.ymin q.y, max bx.ymax q.y,
         min bx.zmin q.z, max bx.zmax q.z⟩)
      ⟨p.x, p.x, p.y, p.y, p.z, p.z⟩

/-- The `Mesh.Algorithm` value selecting the frontal-Delaunay 2D scheme. -/
def FRONTAL_DELAUNAY_2D : Nat := 6

/-- The `Mesh.Algorithm3D` value selecting the Delaunay 3D scheme. -/
def DELAUNAY_3D : Nat := 1

/-- One call against the `gmsh` engine, with the arguments the adapters
pass (`init` stands for `gmsh.initialize`). -/
inductive EngineCall where
  | init : EngineCall
  | setNumber (name : String) (value : Nat) : EngineCall
  | addPoint (x y z : ℚ) (meshSize : ℚ) (tag : Nat) : EngineCall
  | addLine (startTag endTag : Nat) (tag : Nat) : EngineCall
  | addCurveLoop (curveTags : List Nat) (tag : Nat) : EngineCall
  | addPlaneSurface (wireTags : List Nat) (tag : Nat) : EngineCall
  | addSurfaceLoop (surfaceTags : List Nat) (tag : Nat) : EngineCall
  | addVolume (shellTags : List Nat) (tag : Nat) : EngineCall
  | removeAllDuplicates : EngineCall
  | synchronize : EngineCall
  | generate (dim : Nat) : EngineCall
  | extractToMeshio : EngineCall
  | clear : EngineCall
  | finalize : EngineCall
deriving DecidableEq, Repr

/-- A Python exception escaping an adapter: either an exception raised by an
engine call (recording the failing call and the engine's message), or the
`TypeError` raised by the adapter's own misuse of `np.max`. -/
inductive PyErr where
  | engineError (call : EngineCall) (msg : String) : PyErr
  | typeError (msg : String) : PyErr
deriving DecidableEq, Repr

/-- One cell block of the `meshio` mesh returned by `extract_to_meshio()`:
a cell-type string (`"triangle"`, `"line"`, ...) and its connectivity. -/
structure MeshioCellBlock where
  cellType : String
  data : List (List Nat)
deriving DecidableEq, Repr

/-- The `meshio` mesh returned by `extract_to_meshio()`. -/
structure MeshioMesh where
  points : List P3
  cells : List MeshioCellBlock
deriving DecidableEq, Repr

/-- The VTK cell-type id of a tetrahedron (`pv.CellType.TETRA`). -/
def VTK_TETRA : Nat := 10

/-- One cell of a `pyvista.UnstructuredGrid`. -/
structure VtkCell where
  cellType : Nat
  pointIds : List Nat
deriving DecidableEq, Repr

/-- A `pyvista.UnstructuredGrid`: points, cells, and the names of the
attached point/cell/field data arrays. -/
structure UGrid where
  points : List P3
  cells : List VtkCell
  arrays : List String
deriving DecidableEq, Repr

/-- The `pyvista.PolyData` built by
`pv.PolyData.from_regular_faces(mesh.points, cell.data)`. -/
structure TriMesh where
  points : List P3
  faces : List (List Nat)
deriving DecidableEq, Repr

/-- Deterministic model of the external engine: `fails` tells whether the
session whose call history is the given list raises at its last call (and
with what message); `extract` is the `meshio` mesh that
`extract_to_meshio()` returns given the session history; `extractGrid` is
the `pyvista`-wrapped form `pv.wrap(extract_to_meshio())` of the same. -/
structure Engine where
  fails : List EngineCall → Option String
  extract : List EngineCall → MeshioMesh
  extractGrid : List EngineCall → UGrid

/-- Session state transition: `gmsh.initialize()` begins a fresh session
(the engine keeps no state across initialize), any other call extends the
current session history. -/
def applyCall (st : List EngineCall) (c : EngineCall) : List EngineCall :=
  match c with
  | EngineCall.init => [EngineCall.init]
  | c => st ++ [c]

/-- Execute a list of engine calls from session state `st`: returns the
final session state, the list of calls completed without raising, and the
error of the first raising call (if any); calls after a raise are not
made. -/
def execCalls (eng : Engine) (st : List EngineCall) :
    List EngineCall → List EngineCall × List EngineCall × Option PyErr
  | [] => (st, [], none)
  | c :: rest =>
    let st' := applyCall st c
    match eng.fails st' with
    | some e => (st', [], some (PyErr.engineError c e))
    | none =>
      let r := execCalls eng st' rest
      (r.1, c :: r.2.1, r.2.2)

/-- Python's `enumerate` starting at `k`. -/
def enumFrom {α : Type} (k : Nat) : List α → List (Nat × α)
  | [] => []
  | a :: as => (k, a) :: enumFrom (k + 1) as

/-- The `gmsh.model.geo.add_point` loop shared by both adapters:
`for i, point in enumerate(points): gmsh.model.geo.add_point(point[0],
point[1], point[2], target_size, i + 1)`. -/
def pointCalls (points : List P3) (ts : ℚ) : List EngineCall :=
  (enumFrom 0 points).map
    (fun ip => EngineCall.addPoint ip.2.x ip.2.y ip.2.z ts (ip.1 + 1))

/-- The 2D adapter's line loop: `for i in range(lines[0] - 1):
gmsh.model.geo.add_line(lines[i + 1] + 1, lines[i + 2] + 1, i + 1)`. -/
def lineCalls2d (lines : List Nat) : List EngineCall :=
  (List.range (lines.getD 0 0 - 1)).map
    (fun i =>
      EngineCall.addLine (lines.getD (i + 1) 0 + 1) (lines.getD (i + 2) 0 + 1)
        (i + 1))

/-- Python `range(1, n)` as a list. -/
def rangeFrom1 (n : Nat) : List Nat := (List.range (n - 1)).map (· + 1)

/-- The 2D adapter's registration/meshing/extraction calls after the
target size is known: points, lines, `add_curve_loop(range(1, lines[0]),
1)`, `add_plane_surface([1], 1)`, `synchronize()`, `generate(2)`,
`extract_to_meshio()`. -/
def frontalMidCalls (src : PolyData) (ts : ℚ) : List EngineCall :=
  pointCalls src.points ts ++ lineCalls2d src.lines ++
    [EngineCall.addCurveLoop (rangeFrom1 (src.lines.getD 0 0)) 1,
     EngineCall.addPlaneSurface [1] 1, EngineCall.synchronize,
     EngineCall.generate 2, EngineCall.extractToMeshio]

/-- The session call history at the moment the 2D adapter calls
`extract_to_meshio()`. -/
def frontalExtractHistory (src : PolyData) (ts : ℚ) : List EngineCall :=
  EngineCall.init :: EngineCall.setNumber "Mesh.Algorithm" FRONTAL_DELAUNAY_2D ::
    frontalMidCalls src ts

/-- The complete sequence of engine calls a successful
`frontal_delaunay_2d` invocation makes. -/
def frontalFullTrace (src : PolyData) (ts : ℚ) : List EngineCall :=
  frontalExtractHistory src ts ++ [EngineCall.clear, EngineCall.finalize]

/-- The `TypeError` message class raised by `np.max` on scalar
`axis`/`out` arguments. -/
def npMaxTypeErrorMsg : String :=
  "TypeError: np.max axis and out arguments cannot be scalars"

/-- Model of `np.max(a, axis, out)` called with three positional scalars,
as the 2D adapter's default-target-size line does: the second positional
argument of `np.max` is `axis` and the third is `out`, so passing scalar
extents there raises `TypeError` at runtime (a float cannot be used as an
axis, nor a float as an output array); no maximum is computed. -/
def npMaxScalarScalarScalar (a axis out : ℚ) : Except PyErr ℚ :=
  Except.error (PyErr.typeError npMaxTypeErrorMsg)

/-- The 2D adapter's default target size computation
(`target_size = np.max(np.abs(bounds[1] - bounds[0]), np.abs(bounds[3] -
bounds[2]), np.abs(bounds[5] - bounds[4]))`). -/
def defaultTargetSize2d (src : PolyData) : Except PyErr ℚ :=
  let bounds := boundsOf src.points
  npMaxScalarScalarScalar |bounds.xmax - bounds.xmin|
    |bounds.ymax - bounds.ymin| |bounds.zmax - bounds.zmin|

/-- Model of `if target_size is None: target_size = np.max(...)`. -/
def resolveTargetSize2d (src : PolyData) : Option ℚ → Except PyErr ℚ
  | some ts => Except.ok ts
  | none => defaultTargetSize2d src

/-- The final scan of the 2D adapter: `for cell in mesh.cells: if
cell.type == "triangle": return pv.PolyData.from_regular_faces(mesh.points,
cell.data)` then `return None`. -/
def frontalScan (mesh : MeshioMesh) : Option TriMesh :=
  match mesh.cells.find? (fun cell => cell.cellType == "triangle") with
  | some cell => some { points := mesh.points, faces := cell.data }
  | none => none

/-- The 2D adapter `frontal_delaunay_2d`, as a function of the engine
oracle, the engine state `st0` left by earlier invocations, the input
`edge_source`, and `target_size`.  Returns the list of engine calls
completed without raising, and either the escaping exception or the
returned value (`none` models Python's `None` return). -/
def frontal_delaunay_2d (eng : Engine) (st0 : List EngineCall)
    (src : PolyData) (target_size : Option ℚ) :
    List EngineCall × Except PyErr (Option TriMesh) :=
  let r1 := execCalls eng st0
    [EngineCall.init, EngineCall.setNumber "Mesh.Algorithm" FRONTAL_DELAUNAY_2D]
  match r1.2.2 with
  | some e => (r1.2.1, Except.error e)
  | none =>
    match resolveTargetSize2d src target_size with
    | Except.error e => (r1.2.1, Except.error e)
    | Except.ok ts =>
      let r2 := execCalls eng r1.1 (frontalMidCalls src ts)
      match r2.2.2 with
      | some e => (r1.2.1 ++ r2.2.1, Except.error e)
      | none =>
        let mesh := eng.extract r2.1
        let r3 := execCalls eng r2.1 [EngineCall.clear, EngineCall.finalize]
        match r3.2.2 with
        | some e => (r1.2.1 ++ r2.2.1 ++ r3.2.1, Except.error e)
        | none => (r1.2.1 ++ r2.2.1 ++ r3.2.1, Except.ok (frontalScan mesh))

/-- The per-face calls of the 3D adapter's face loop: four
`add_line(face[k] + 1, face[k+1] + 1, i * 4 + k)`, one
`add_curve_loop([i*4+0, .., i*4+3], i + 1)`, one
`add_plane_surface([i + 1], i + 1)`, `remove_all_duplicates()`,
`synchronize()`. -/
def faceCalls (i : Nat) (f : Face4) : List EngineCall :=
  [EngineCall.addLine (f.a + 1) (f.b + 1) (i * 4 + 0),
   EngineCall.addLine (f.b + 1) (f.c + 1) (i * 4 + 1),
   EngineCall.addLine (f.c + 1) (f.d + 1) (i * 4 + 2),
   EngineCall.addLine (f.d + 1) (f.a + 1) (i * 4 + 3),
   EngineCall.addCurveLoop [i * 4 + 0, i * 4 + 1, i * 4 + 2, i * 4 + 3] (i + 1),
   EngineCall.addPlaneSurface [i + 1] (i + 1),
   EngineCall.removeAllDuplicates, EngineCall.synchronize]

/-- The `surface_loop` list the 3D adapter accumulates: `i + 1` for each
face index `i`. -/
def surfaceLoopTags (faces : List Face4) : List Nat :=
  (enumFrom 0 faces).map (fun p => p.1 + 1)

/-- The 3D adapter's registration/meshing/extraction calls: points, the
face loop, `add_surface_loop(surface_loop, 1)`, `add_volume([1], 1)`,
`synchronize()`, `generate(3)`, `extract_to_meshio()`. -/
def delaunay3dMidCalls (src : PolyData) (ts : ℚ) : List EngineCall :=
  pointCalls src.points ts ++
    (enumFrom 0 src.regular_faces).bind (fun p => faceCalls p.1 p.2) ++
    [EngineCall.addSurfaceLoop (surfaceLoopTags src.regular_faces) 1,
     EngineCall.addVolume [1] 1, EngineCall.synchronize,
     EngineCall.generate 3, EngineCall.extractToMeshio]

/-- The session call history at the moment the 3D adapter calls
`extract_to_meshio()`. -/
def delaunay3dExtractHistory (src : PolyData) (ts : ℚ) : List EngineCall :=
  EngineCall.init :: EngineCall.setNumber "Mesh.Algorithm3D" DELAUNAY_3D ::
    delaunay3dMidCalls src ts

/-- The complete sequence of engine calls a successful `delaunay_3d`
invocation makes. -/
def delaunay3dFullTrace (src : PolyData) (ts : ℚ) : List EngineCall :=
  delaunay3dExtractHistory src ts ++ [EngineCall.clear, EngineCall.finalize]

/-- The index list built by `ind = []; for i, cell in enumerate(mesh.cell):
if cell.type != pv.CellType.TETRA: ind.append(i)`. -/
def nonTetraIndices (cells : List VtkCell) : List Nat :=
  ((enumFrom 0 cells).filter (fun ic => ic.2.cellType != VTK_TETRA)).map
    (fun ic => ic.1)

/-- Model of `mesh.remove_cells(ind)`: drop the cells whose index is listed. -/
def remove_cells (g : UGrid) (ind : List Nat) : UGrid :=
  { g with
    cells := ((enumFrom 0 g.cells).filter (fun ic => !(ind.contains ic.1))).map
      (fun ic => ic.2) }

/-- Model of `mesh.clear_data()`: remove every attached data array. -/
def clear_data (g : UGrid) : UGrid := { g with arrays := [] }

/-- The 3D adapter's post-processing of the extracted grid. -/
def delaunay3dPost (g : UGrid) : UGrid :=
  clear_data (remove_cells g (nonTetraIndices g.cells))

/-- The 3D adapter `delaunay_3d`, modelled like `frontal_delaunay_2d`.
The declared return type is optional (`pv.UnstructuredGrid | None`), hence
the `Option` in the result. -/
def delaunay_3d (eng : Engine) (st0 : List EngineCall) (src : PolyData)
    (target_size : ℚ) : List EngineCall × Except PyErr (Option UGrid) :=
  let r1 := execCalls eng st0
    [EngineCall.init, EngineCall.setNumber "Mesh.Algorithm3D" DELAUNAY_3D]
  match r1.2.2 with
  | some e => (r1.2.1, Except.error e)
  | none =>
    let r2 := execCalls eng r1.1 (delaunay3dMidCalls src target_size)
    match r2.2.2 with
    | some e => (r1.2.1 ++ r2.2.1, Except.error e)
    | none =>
      let grid := eng.extractGrid r2.1
      let r3 := execCalls eng r2.1 [EngineCall.clear, EngineCall.finalize]
      match r3.2.2 with
      | some e => (r1.2.1 ++ r2.2.1 ++ r3.2.1, Except.error e)
      | none => (r1.2.1 ++ r2.2.1 ++ r3.2.1, Except.ok (some (delaunay3dPost grid)))

/-! ## Lemmas about execution of engine calls -/

/-- If no call of the list raised, every call of the list completed. -/
theorem execCalls_done_of_ok (eng : Engine) (st : List EngineCall)
    (cs : List EngineCall) (h : (execCalls eng st cs).2.2 = none) :
    (execCalls eng st cs).2.1 = cs := by
  induction cs generalizing st with
  | nil => rfl
  | cons c rest ih =>
    simp only [execCalls] at h ⊢
    cases hf : eng.fails (applyCall st c) with
    | some e => simp [hf] at h
    | none =>
      simp only [hf] at h ⊢
      simpa using ih (applyCall st c) h

/-- If no call of the list raised, the final session state is the fold of
the transition function over the list. -/
theorem execCalls_state_of_ok (eng : Engine) (st : List EngineCall)
    (cs : List EngineCall) (h : (execCalls eng st cs).2.2 = none) :
    (execCalls eng st cs).1 = cs.foldl applyCall st := by
  induction cs generalizing st with
  | nil => rfl
  | cons c rest ih =>
    simp only [execCalls] at h ⊢
    cases hf : eng.fails (applyCall st c) with
    | some e => simp [hf] at h
    | none =>
      simp only [hf] at h ⊢
      exact ih (applyCall st c) h

/-- A list of calls none of which is `initialize` only appends to the
session history. -/
theorem foldl_applyCall_no_init (cs : List EngineCall) (st : List EngineCall)
    (h : EngineCall.init ∉ cs) : cs.foldl applyCall st = st ++ cs := by
  induction cs generalizing st with
  | nil => simp
  | cons c rest ih =>
    simp only [List.mem_cons, not_or] at h
    have hc : applyCall st c = st ++ [c] := by
      cases c <;> simp_all [applyCall]
    simp only [List.foldl_cons, hc, ih (st ++ [c]) h.2, List.append_assoc,
      List.singleton_append]

/-- Against an engine that never fails, execution completes without
error. -/
theorem execCalls_err_none (eng : Engine)
    (hfail : ∀ h, eng.fails h = none) (st : List EngineCall)
    (cs : List EngineCall) : (execCalls eng st cs).2.2 = none := by
  induction cs generalizing st with
  | nil => rfl
  | cons c rest ih =>
    simp only [execCalls, hfail]
    exact ih (applyCall st c)

/-- If execution raised, the completed calls are a proper prefix of the
list, the failing call is the next one, and the error wraps a message the
engine itself reported. -/
theorem execCalls_err_elim (eng : Engine) (st : List EngineCall)
    (cs : List EngineCall) (c : EngineCall) (e : String)
    (h : (execCalls eng st cs).2.2 = some (PyErr.engineError c e)) :
    (∃ pre post, cs = pre ++ c :: post ∧ (execCalls eng st cs).2.1 = pre) ∧
      ∃ hist, eng.fails hist = some e := by
  induction cs generalizing st with
  | nil => simp [execCalls] at h
  | cons c0 rest ih =>
    simp only [execCalls] at h ⊢
    cases hf : eng.fails (applyCall st c0) with
    | some e0 =>
      simp only [hf] at h ⊢
      obtain ⟨hc, he⟩ := by simpa [PyErr.engineError.injEq] using h
      subst hc; subst he
      exact ⟨⟨[], rest, rfl, rfl⟩, applyCall st c0, hf⟩
    | none =>
      simp only [hf] at h ⊢
      obtain ⟨⟨pre, post, hsplit, hdone⟩, hmsg⟩ := ih (applyCall st c0) h
      exact ⟨⟨c0 :: pre, post, by simp [hsplit], by simp [hdone]⟩, hmsg⟩

/-- The first call being `initialize`, the execution does not depend on the
session state left by earlier engine use. -/
theorem execCalls_init_state_irrel (eng : Engine) (st1 st2 : List EngineCall)
    (cs : List EngineCall) :
    execCalls eng st1 (EngineCall.init :: cs) =
      execCalls eng st2 (EngineCall.init :: cs) := by
  simp only [execCalls, applyCall]

/-! ## Trace shape lemmas -/

/-- No call produced by the 2D adapter's registration/meshing segment is
`initialize`, `clear` or `finalize`. -/
theorem frontalMidCalls_mem (src : PolyData) (ts : ℚ) (c : EngineCall)
    (h : c ∈ frontalMidCalls src ts) :
    c ≠ EngineCall.init ∧ c ≠ EngineCall.clear ∧ c ≠ EngineCall.finalize := by
  simp only [frontalMidCalls, pointCalls, lineCalls2d, List.mem_append,
    List.mem_map, List.mem_cons, List.not_mem_nil, or_false] at h
  rcases h with (⟨ip, _, rfl⟩ | ⟨i, _, rfl⟩) | rfl | rfl | rfl | rfl | rfl <;> simp

/-- No call produced by the 3D adapter's registration/meshing segment is
`initialize`, `clear` or `finalize`. -/
theorem delaunay3dMidCalls_mem (src : PolyData) (ts : ℚ) (c : EngineCall)
    (h : c ∈ delaunay3dMidCalls src ts) :
    c ≠ EngineCall.init ∧ c ≠ EngineCall.clear ∧ c ≠ EngineCall.finalize := by
  simp only [delaunay3dMidCalls, pointCalls, List.mem_append, List.mem_map,
    List.mem_bind, List.mem_cons, List.not_mem_nil, or_false] at h
  rcases h with (⟨ip, _, rfl⟩ | ⟨p, _, hf⟩) | rfl | rfl | rfl | rfl | rfl
  · simp
  · simp only [faceCalls, List.mem_cons, List.not_mem_nil, or_false] at hf
    rcases hf with rfl | rfl | rfl | rfl | rfl | rfl | rfl | rfl <;> simp
  all_goals simp

/-- The engine session states the 2D adapter passes through on a successful
run: after the two opening calls the state is exactly those two calls. -/
theorem foldl_pre2d (st0 : List EngineCall) :
    List.foldl applyCall st0 [EngineCall.init,
      EngineCall.setNumber "Mesh.Algorithm" FRONTAL_DELAUNAY_2D] =
      [EngineCall.init,
       EngineCall.setNumber "Mesh.Algorithm" FRONTAL_DELAUNAY_2D] := rfl

/-- Same for the 3D adapter's two opening calls. -/
theorem foldl_pre3d (st0 : List EngineCall) :
    List.foldl applyCall st0 [EngineCall.init,
      EngineCall.setNumber "Mesh.Algorithm3D" DELAUNAY_3D] =
      [EngineCall.init,
       EngineCall.setNumber "Mesh.Algorithm3D" DELAUNAY_3D] := rfl

/-- Success characterization of the 2D adapter with an explicit target
size: the calls made are exactly the full trace, and the returned value is
the triangle-block scan of the mesh the engine extracted at the recorded
history. -/
theorem frontal_ok (eng : Engine) (st0 : List EngineCall) (src : PolyData)
    (ts : ℚ) (r : Option TriMesh)
    (h : (frontal_delaunay_2d eng st0 src (some ts)).2 = Except.ok r) :
    (frontal_delaunay_2d eng st0 src (some ts)).1 = frontalFullTrace src ts ∧
      r = frontalScan (eng.extract (frontalExtractHistory src ts)) := by
  cases h1 : (execCalls eng st0 [EngineCall.init,
      EngineCall.setNumber "Mesh.Algorithm" FRONTAL_DELAUNAY_2D]).2.2 with
  | some e => simp [frontal_delaunay_2d, h1] at h
  | none =>
    cases h2 : (execCalls eng (execCalls eng st0 [EngineCall.init,
        EngineCall.setNumber "Mesh.Algorithm" FRONTAL_DELAUNAY_2D]).1
        (frontalMidCalls src ts)).2.2 with
    | some e => simp [frontal_delaunay_2d, resolveTargetSize2d, h1, h2] at h
    | none =>
      cases h3 : (execCalls eng (execCalls eng (execCalls eng st0
          [EngineCall.init,
           EngineCall.setNumber "Mesh.Algorithm" FRONTAL_DELAUNAY_2D]).1
          (frontalMidCalls src ts)).1
          [EngineCall.clear, EngineCall.finalize]).2.2 with
      | some e =>
        simp [frontal_delaunay_2d, resolveTargetSize2d, h1, h2, h3] at h
      | none =>
        have s1 := execCalls_state_of_ok eng st0 _ h1
        rw [foldl_pre2d] at s1
        have hist : (execCalls eng (execCalls eng st0 [EngineCall.init,
            EngineCall.setNumber "Mesh.Algorithm" FRONTAL_DELAUNAY_2D]).1
            (frontalMidCalls src ts)).1 = frontalExtractHistory src ts := by
          rw [execCalls_state_of_ok eng _ (frontalMidCalls src ts) h2, s1,
            foldl_applyCall_no_init (frontalMidCalls src ts) _
              (fun hmem => (frontalMidCalls_mem src ts _ hmem).1 rfl)]
          rfl
        have d1 := execCalls_done_of_ok eng st0 _ h1
        have d2 := execCalls_done_of_ok eng _ (frontalMidCalls src ts) h2
        have d3 := execCalls_done_of_ok eng _
          [EngineCall.clear, EngineCall.finalize] h3
        simp only [frontal_delaunay_2d, resolveTargetSize2d, h1] at h ⊢
        simp only [h2] at h ⊢
        simp only [h3] at h ⊢
        simp only [d1, d2, d3] at h ⊢
        simp only [hist, Except.ok.injEq] at h ⊢
        exact ⟨by simp [frontalFullTrace, frontalExtractHistory], h.symm⟩

/-- Success characterization of the 3D adapter: the calls made are exactly
the full trace, and the returned value is the post-processed grid
extracted at the recorded history (in particular it is never `None`). -/
theorem delaunay3d_ok (eng : Engine) (st0 : List EngineCall) (src : PolyData)
    (ts : ℚ) (r : Option UGrid)
    (h : (delaunay_3d eng st0 src ts).2 = Except.ok r) :
    (delaunay_3d eng st0 src ts).1 = delaunay3dFullTrace src ts ∧
      r = some (delaunay3dPost
        (eng.extractGrid (delaunay3dExtractHistory src ts))) := by
  cases h1 : (execCalls eng st0 [EngineCall.init,
      EngineCall.setNumber "Mesh.Algorithm3D" DELAUNAY_3D]).2.2 with
  | some e => simp [delaunay_3d, h1] at h
  | none =>
    cases h2 : (execCalls eng (execCalls eng st0 [EngineCall.init,
        EngineCall.setNumber "Mesh.Algorithm3D" DELAUNAY_3D]).1
        (delaunay3dMidCalls src ts)).2.2 with
    | some e => simp [delaunay_3d, h1, h2] at h
    | none =>
      cases h3 : (execCalls eng (execCalls eng (execCalls eng st0
          [EngineCall.init,
           EngineCall.setNumber "Mesh.Algorithm3D" DELAUNAY_3D]).1
          (delaunay3dMidCalls src ts)).1
          [EngineCall.clear, EngineCall.finalize]).2.2 with
      | some e => simp [delaunay_3d, h1, h2, h3] at h
      | none =>
        have s1 := execCalls_state_of_ok eng st0 _ h1
        rw [foldl_pre3d] at s1
        have hist : (execCalls eng (execCalls eng st0 [EngineCall.init,
            EngineCall.setNumber "Mesh.Algorithm3D" DELAUNAY_3D]).1
            (delaunay3dMidCalls src ts)).1 = delaunay3dExtractHistory src ts := by
          rw [execCalls_state_of_ok eng _ (delaunay3dMidCalls src ts) h2, s1,
            foldl_applyCall_no_init (delaunay3dMidCalls src ts) _
              (fun hmem => (delaunay3dMidCalls_mem src ts _ hmem).1 rfl)]
          rfl
        have d1 := execCalls_done_of_ok eng st0 _ h1
        have d2 := execCalls_done_of_ok eng _ (delaunay3dMidCalls src ts) h2
        have d3 := execCalls_done_of_ok eng _
          [EngineCall.clear, EngineCall.finalize] h3
        simp only [delaunay_3d, h1] at h ⊢
        simp only [h2] at h ⊢
        simp only [h3] at h ⊢
        simp only [d1, d2, d3] at h ⊢
        simp only [hist, Except.ok.injEq] at h ⊢
        exact ⟨by simp [delaunay3dFullTrace, delaunay3dExtractHistory], h.symm⟩

/-! ## Lemmas about `enumFrom` and the 3D post-processing -/

/-- Dropping the indices of an enumeration recovers the list. -/
theorem enumFrom_map_snd {α : Type} (k : Nat) (l : List α) :
    (enumFrom k l).map (fun p => p.2) = l := by
  induction l generalizing k with
  | nil => rfl
  | cons a as ih => simp [enumFrom, ih]

/-- Indices of an enumeration starting at `k` are at least `k`. -/
theorem mem_enumFrom_le {α : Type} (k : Nat) (l : List α) (i : Nat) (a : α)
    (h : (i, a) ∈ enumFrom k l) : k ≤ i := by
  induction l generalizing k with
  | nil => simp [enumFrom] at h
  | cons b bs ih =>
    simp only [enumFrom, List.mem_cons, Prod.mk.injEq] at h
    rcases h with ⟨rfl, rfl⟩ | h
    · exact Nat.le_refl i
    · exact Nat.le_of_succ_le (ih (k + 1) h)

/-- An enumeration holds at most one entry per index. -/
theorem enumFrom_snd_unique {α : Type} (k : Nat) (l : List α) (i : Nat)
    (a b : α) (ha : (i, a) ∈ enumFrom k l) (hb : (i, b) ∈ enumFrom k l) :
    a = b := by
  induction l generalizing k with
  | nil => simp [enumFrom] at ha
  | cons c cs ih =>
    simp only [enumFrom, List.mem_cons, Prod.mk.injEq] at ha hb
    rcases ha with ⟨rfl, rfl⟩ | ha
    · rcases hb with ⟨-, rfl⟩ | hb
      · rfl
      · exact absurd (mem_enumFrom_le _ _ _ _ hb) (by omega)
    · rcases hb with ⟨rfl, rfl⟩ | hb
      · exact absurd (mem_enumFrom_le _ _ _ _ ha) (by omega)
      · exact ih (k + 1) ha hb

/-- The index list `ind` holds exactly the indices of the non-tetrahedron
cells: for an enumerated cell, being listed in `ind` coincides with not
being a tetrahedron. -/
theorem nonTetraIndices_contains (cells : List VtkCell) (i : Nat) (c : VtkCell)
    (h : (i, c) ∈ enumFrom 0 cells) :
    (nonTetraIndices cells).contains i = (c.cellType != VTK_TETRA) := by
  cases hb : c.cellType != VTK_TETRA with
  | true =>
    have hmem : i ∈ nonTetraIndices cells := by
      simp only [nonTetraIndices, List.mem_map, List.mem_filter]
      exact ⟨(i, c), ⟨h, hb⟩, rfl⟩
    simpa [List.elem_iff] using hmem
  | false =>
    have hnot : i ∉ nonTetraIndices cells := by
      intro hmem
      simp only [nonTetraIndices, List.mem_map, List.mem_filter] at hmem
      obtain ⟨⟨j, d⟩, ⟨hjd, hd⟩, hj⟩ := hmem
      rw [show j = i from hj] at hjd
      have : d = c := enumFrom_snd_unique 0 cells i d c hjd h
      rw [this, hb] at hd
      exact Bool.false_ne_true hd
    simpa [List.elem_iff] using hnot

/-- Applying `remove_cells` to the non-tetrahedron index list keeps exactly
the tetrahedron cells, in order. -/
theorem remove_cells_nonTetra (g : UGrid) :
    (remove_cells g (nonTetraIndices g.cells)).cells =
      g.cells.filter (fun c => c.cellType == VTK_TETRA) := by
  show ((enumFrom 0 g.cells).filter
      (fun ic => !((nonTetraIndices g.cells).contains ic.1))).map (fun ic => ic.2) =
    g.cells.filter (fun c => c.cellType == VTK_TETRA)
  rw [List.filter_congr' (q := fun ic => ic.2.cellType == VTK_TETRA)
    (fun ic hic => by
      rw [nonTetraIndices_contains g.cells ic.1 ic.2 hic]
      cases hb : ic.2.cellType == VTK_TETRA <;> simp [bne, hb])]
  conv_rhs => rw [← enumFrom_map_snd 0 g.cells]
  rw [List.filter_map]
  rfl

/-- Every cell surviving the 3D post-processing is a tetrahedron, and no
data array survives it. -/
theorem delaunay3dPost_cells (g : UGrid) :
    (delaunay3dPost g).cells = g.cells.filter (fun c => c.cellType == VTK_TETRA) ∧
      (delaunay3dPost g).arrays = [] := by
  constructor
  · show (remove_cells g (nonTetraIndices g.cells)).cells = _
    exact remove_cells_nonTetra g
  · rfl

/-! ## Further helper lemmas and definitions -/

/-- Indices of an enumeration of `l` starting at `k` are below
`k + l.length`. -/
theorem mem_enumFrom_lt {α : Type} (k : Nat) (l : List α) (i : Nat) (a : α)
    (h : (i, a) ∈ enumFrom k l) : i < k + l.length := by
  induction l generalizing k with
  | nil => simp [enumFrom] at h
  | cons b bs ih =>
    simp only [enumFrom, List.mem_cons, Prod.mk.injEq] at h
    rcases h with ⟨rfl, rfl⟩ | h
    · simp
    · have := ih (k + 1) h
      simp only [List.length_cons]
      omega

/-- The scan finds the first triangle block: blocks before it are not
triangles, it is one. -/
theorem find_triangle_first (pre : List MeshioCellBlock) (blk : MeshioCellBlock)
    (post : List MeshioCellBlock) (hpre : ∀ b ∈ pre, b.cellType ≠ "triangle")
    (hblk : blk.cellType = "triangle") :
    (pre ++ blk :: post).find? (fun c => c.cellType == "triangle") = some blk := by
  induction pre with
  | nil =>
    simp only [List.nil_append]
    exact List.find?_cons_of_pos _ (by simp [hblk])
  | cons b bs ih =>
    rw [List.cons_append,
      List.find?_cons_of_neg _ (by simp [hpre b (List.mem_cons_self b bs)])]
    exact ih (fun x hx => hpre x (List.mem_cons_of_mem b hx))

/-- When no block is a triangle the scan finds nothing. -/
theorem find_triangle_none (cells : List MeshioCellBlock)
    (h : ∀ b ∈ cells, b.cellType ≠ "triangle") :
    cells.find? (fun c => c.cellType == "triangle") = none :=
  List.find?_eq_none.mpr (fun x hx => by simp [h x hx])

/-- The 2D adapter's line registrations, for an input whose first line
cell is `n` followed by `n` point indices: one `add_line` per consecutive
index pair. -/
theorem lineCalls2d_eq (n : Nat) (idxs rest : List Nat) (hlen : idxs.length = n) :
    lineCalls2d (n :: idxs ++ rest) =
      (List.range (n - 1)).map (fun i =>
        EngineCall.addLine (idxs.getD i 0 + 1) (idxs.getD (i + 1) 0 + 1)
          (i + 1)) := by
  unfold lineCalls2d
  have h0 : ((n :: idxs ++ rest) : List Nat).getD 0 0 = n := rfl
  rw [h0]
  refine List.map_eq_map_iff.mpr (fun i hi => ?_)
  have hi' : i < n - 1 := List.mem_range.mp hi
  have h1 : ((n :: idxs ++ rest) : List Nat).getD (i + 1) 0 = idxs.getD i 0 := by
    show (idxs ++ rest).getD i 0 = idxs.getD i 0
    exact List.getD_append idxs rest 0 i (by omega)
  have h2 : ((n :: idxs ++ rest) : List Nat).getD (i + 2) 0 =
      idxs.getD (i + 1) 0 := by
    show (idxs ++ rest).getD (i + 1) 0 = idxs.getD (i + 1) 0
    exact List.getD_append idxs rest 0 (i + 1) (by omega)
  rw [h1, h2]

/-- The registration tag an engine call passes to the engine, for the
calls that register a geometric entity. -/
def regTag : EngineCall → Option Nat
  | EngineCall.addPoint _ _ _ _ t => some t
  | EngineCall.addLine _ _ t => some t
  | EngineCall.addCurveLoop _ t => some t
  | EngineCall.addPlaneSurface _ t => some t
  | EngineCall.addSurfaceLoop _ t => some t
  | EngineCall.addVolume _ t => some t
  | _ => none

/-- Whether a call is a line registration. -/
def isAddLine : EngineCall → Bool
  | EngineCall.addLine _ _ _ => true
  | _ => false

/-- With `target_size=None` the 2D adapter always raises: either an engine
call fails, or the default-target-size computation raises `TypeError`. -/
theorem frontal_none_raises (eng : Engine) (st0 : List EngineCall)
    (src : PolyData) :
    ∃ e, (frontal_delaunay_2d eng st0 src none).2 = Except.error e := by
  cases h1 : (execCalls eng st0 [EngineCall.init,
      EngineCall.setNumber "Mesh.Algorithm" FRONTAL_DELAUNAY_2D]).2.2 with
  | some e => exact ⟨e, by simp [frontal_delaunay_2d, h1]⟩
  | none =>
    exact ⟨PyErr.typeError npMaxTypeErrorMsg, by
      simp [frontal_delaunay_2d, h1, resolveTargetSize2d, defaultTargetSize2d,
        npMaxScalarScalarScalar]⟩

/-- Against an engine that never raises, the 2D adapter with an explicit
target size returns normally, with the triangle-block scan of the
extracted mesh. -/
theorem frontal_no_fail (eng : Engine) (hfail : ∀ h, eng.fails h = none)
    (st0 : List EngineCall) (src : PolyData) (ts : ℚ) :
    (frontal_delaunay_2d eng st0 src (some ts)).2 =
      Except.ok (frontalScan (eng.extract (frontalExtractHistory src ts))) := by
  have h1 : (execCalls eng st0 [EngineCall.init,
      EngineCall.setNumber "Mesh.Algorithm" FRONTAL_DELAUNAY_2D]).2.2 = none :=
    execCalls_err_none eng hfail st0 _
  have h2 : (execCalls eng (execCalls eng st0 [EngineCall.init,
      EngineCall.setNumber "Mesh.Algorithm" FRONTAL_DELAUNAY_2D]).1
      (frontalMidCalls src ts)).2.2 = none := execCalls_err_none eng hfail _ _
  have h3 : (execCalls eng (execCalls eng (execCalls eng st0 [EngineCall.init,
      EngineCall.setNumber "Mesh.Algorithm" FRONTAL_DELAUNAY_2D]).1
      (frontalMidCalls src ts)).1
      [EngineCall.clear, EngineCall.finalize]).2.2 = none :=
    execCalls_err_none eng hfail _ _
  have s1 := execCalls_state_of_ok eng st0 _ h1
  rw [foldl_pre2d] at s1
  have hist : (execCalls eng (execCalls eng st0 [EngineCall.init,
      EngineCall.setNumber "Mesh.Algorithm" FRONTAL_DELAUNAY_2D]).1
      (frontalMidCalls src ts)).1 = frontalExtractHistory src ts := by
    rw [execCalls_state_of_ok eng _ (frontalMidCalls src ts) h2, s1,
      foldl_applyCall_no_init (frontalMidCalls src ts) _
        (fun hmem => (frontalMidCalls_mem src ts _ hmem).1 rfl)]
    rfl
  simp only [frontal_delaunay_2d, resolveTargetSize2d, h1]
  simp only [h2]
  simp only [h3]
  simp only [hist]

/-- Against an engine that never raises, the 3D adapter returns normally,
with the post-processed extracted grid. -/
theorem delaunay3d_no_fail (eng : Engine) (hfail : ∀ h, eng.fails h = none)
    (st0 : List EngineCall) (src : PolyData) (ts : ℚ) :
    (delaunay_3d eng st0 src ts).2 = Except.ok (some (delaunay3dPost
      (eng.extractGrid (delaunay3dExtractHistory src ts)))) := by
  have h1 : (execCalls eng st0 [EngineCall.init,
      EngineCall.setNumber "Mesh.Algorithm3D" DELAUNAY_3D]).2.2 = none :=
    execCalls_err_none eng hfail st0 _
  have h2 : (execCalls eng (execCalls eng st0 [EngineCall.init,
      EngineCall.setNumber "Mesh.Algorithm3D" DELAUNAY_3D]).1
      (delaunay3dMidCalls src ts)).2.2 = none := execCalls_err_none eng hfail _ _
  have h3 : (execCalls eng (execCalls eng (execCalls eng st0 [EngineCall.init,
      EngineCall.setNumber "Mesh.Algorithm3D" DELAUNAY_3D]).1
      (delaunay3dMidCalls src ts)).1
      [EngineCall.clear, EngineCall.finalize]).2.2 = none :=
    execCalls_err_none eng hfail _ _
  have s1 := execCalls_state_of_ok eng st0 _ h1
  rw [foldl_pre3d] at s1
  have hist : (execCalls eng (execCalls eng st0 [EngineCall.init,
      EngineCall.setNumber "Mesh.Algorithm3D" DELAUNAY_3D]).1
      (delaunay3dMidCalls src ts)).1 = delaunay3dExtractHistory src ts := by
    rw [execCalls_state_of_ok eng _ (delaunay3dMidCalls src ts) h2, s1,
      foldl_applyCall_no_init (delaunay3dMidCalls src ts) _
        (fun hmem => (delaunay3dMidCalls_mem src ts _ hmem).1 rfl)]
    rfl
  simp only [delaunay_3d, h1]
  simp only [h2]
  simp only [h3]
  simp only [hist]

/-! ## Error-path characterization -/

/-- A split of the teardown call pair `[clear, finalize]` at a failing
call other than `finalize` must split before `clear`. -/
theorem teardown_split (pre post : List EngineCall) (c : EngineCall)
    (h : [EngineCall.clear, EngineCall.finalize] = pre ++ c :: post)
    (hc : c ≠ EngineCall.finalize) : pre = [] := by
  rcases pre with _ | ⟨x, pre'⟩
  · rfl
  · rcases pre' with _ | ⟨y, pre''⟩
    · simp only [List.cons_append, List.nil_append, List.cons.injEq] at h
      exact absurd h.2.1.symm hc
    · simp only [List.cons_append, List.cons.injEq] at h
      exact absurd h.2.2 (by simp)

/-- If the 2D adapter escapes with an engine exception whose failing call
is not `finalize`, then the calls completed before the exception include
neither `clear` nor `finalize` (the session dangles), and the escaping
message is exactly one the engine reported (propagated unmodified). -/
theorem frontal_err (eng : Engine) (st0 : List EngineCall) (src : PolyData)
    (tsOpt : Option ℚ) (c : EngineCall) (e : String)
    (h : (frontal_delaunay_2d eng st0 src tsOpt).2 =
      Except.error (PyErr.engineError c e))
    (hc : c ≠ EngineCall.finalize) :
    EngineCall.clear ∉ (frontal_delaunay_2d eng st0 src tsOpt).1 ∧
      EngineCall.finalize ∉ (frontal_delaunay_2d eng st0 src tsOpt).1 ∧
      ∃ hist, eng.fails hist = some e := by
  cases h1 : (execCalls eng st0 [EngineCall.init,
      EngineCall.setNumber "Mesh.Algorithm" FRONTAL_DELAUNAY_2D]).2.2 with
  | some err =>
    simp only [frontal_delaunay_2d, h1, Except.error.injEq] at h ⊢
    subst h
    obtain ⟨⟨pre, post, hsplit, hdone⟩, hmsg⟩ :=
      execCalls_err_elim eng st0 _ c e h1
    rw [hdone]
    refine ⟨fun hmem => ?_, fun hmem => ?_, hmsg⟩ <;>
    · have : _ ∈ pre ++ c :: post := List.mem_append_left _ hmem
      rw [← hsplit] at this
      simp at this
  | none =>
    cases tsOpt with
    | none =>
      simp [frontal_delaunay_2d, h1, resolveTargetSize2d, defaultTargetSize2d,
        npMaxScalarScalarScalar] at h
    | some ts =>
      cases h2 : (execCalls eng (execCalls eng st0 [EngineCall.init,
          EngineCall.setNumber "Mesh.Algorithm" FRONTAL_DELAUNAY_2D]).1
          (frontalMidCalls src ts)).2.2 with
      | some err =>
        have d1 := execCalls_done_of_ok eng st0 _ h1
        simp only [frontal_delaunay_2d, resolveTargetSize2d, h1] at h ⊢
        simp only [h2, Except.error.injEq] at h ⊢
        subst h
        obtain ⟨⟨pre, post, hsplit, hdone⟩, hmsg⟩ :=
          execCalls_err_elim eng _ _ c e h2
        rw [hdone, d1]
        refine ⟨fun hmem => ?_, fun hmem => ?_, hmsg⟩ <;>
        · rw [List.mem_append] at hmem
          rcases hmem with hmem | hmem
          · simp at hmem
          · have hin : _ ∈ pre ++ c :: post := List.mem_append_left _ hmem
            rw [← hsplit] at hin
            rcases frontalMidCalls_mem src ts _ hin with ⟨-, hcl, hfin⟩
            first
              | exact hcl rfl
              | exact hfin rfl
      | none =>
        cases h3 : (execCalls eng (execCalls eng (execCalls eng st0
            [EngineCall.init,
             EngineCall.setNumber "Mesh.Algorithm" FRONTAL_DELAUNAY_2D]).1
            (frontalMidCalls src ts)).1
            [EngineCall.clear, EngineCall.finalize]).2.2 with
        | some err =>
          have d1 := execCalls_done_of_ok eng st0 _ h1
          have d2 := execCalls_done_of_ok eng _ (frontalMidCalls src ts) h2
          simp only [frontal_delaunay_2d, resolveTargetSize2d, h1] at h ⊢
          simp only [h2] at h ⊢
          simp only [h3, Except.error.injEq] at h ⊢
          subst h
          obtain ⟨⟨pre, post, hsplit, hdone⟩, hmsg⟩ :=
            execCalls_err_elim eng _ _ c e h3
          rw [hdone, d1, d2, teardown_split pre post c hsplit hc]
          refine ⟨fun hmem => ?_, fun hmem => ?_, hmsg⟩ <;>
          · simp only [List.append_nil, List.mem_append] at hmem
            rcases hmem with hmem | hmem
            · simp at hmem
            · rcases frontalMidCalls_mem src ts _ hmem with ⟨-, hcl, hfin⟩
              first
                | exact hcl rfl
                | exact hfin rfl
        | none =>
          simp only [frontal_delaunay_2d, resolveTargetSize2d, h1] at h
          simp only [h2] at h
          simp only [h3] at h
          simp at h

/-- Same error-path characterization for the 3D adapter. -/
theorem delaunay3d_err (eng : Engine) (st0 : List EngineCall)
    (src : PolyData) (ts : ℚ) (c : EngineCall) (e : String)
    (h : (delaunay_3d eng st0 src ts).2 =
      Except.error (PyErr.engineError c e))
    (hc : c ≠ EngineCall.finalize) :
    EngineCall.clear ∉ (delaunay_3d eng st0 src ts).1 ∧
      EngineCall.finalize ∉ (delaunay_3d eng st0 src ts).1 ∧
      ∃ hist, eng.fails hist = some e := by
  cases h1 : (execCalls eng st0 [EngineCall.init,
      EngineCall.setNumber "Mesh.Algorithm3D" DELAUNAY_3D]).2.2 with
  | some err =>
    simp only [delaunay_3d, h1, Except.error.injEq] at h ⊢
    subst h
    obtain ⟨⟨pre, post, hsplit, hdone⟩, hmsg⟩ :=
      execCalls_err_elim eng st0 _ c e h1
    rw [hdone]
    refine ⟨fun hmem => ?_, fun hmem => ?_, hmsg⟩ <;>
    · have : _ ∈ pre ++ c :: post := List.mem_append_left _ hmem
      rw [← hsplit] at this
      simp at this
  | none =>
    cases h2 : (execCalls eng (execCalls eng st0 [EngineCall.init,
        EngineCall.setNumber "Mesh.Algorithm3D" DELAUNAY_3D]).1
        (delaunay3dMidCalls src ts)).2.2 with
    | some err =>
      have d1 := execCalls_done_of_ok eng st0 _ h1
      simp only [delaunay_3d, h1] at h ⊢
      simp only [h2, Except.error.injEq] at h ⊢
      subst h
      obtain ⟨⟨pre, post, hsplit, hdone⟩, hmsg⟩ :=
        execCalls_err_elim eng _ _ c e h2
      rw [hdone, d1]
      refine ⟨fun hmem => ?_, fun hmem => ?_, hmsg⟩ <;>
      · rw [List.mem_append] at hmem
        rcases hmem with hmem | hmem
        · simp at hmem
        · have hin : _ ∈ pre ++ c :: post := List.mem_append_left _ hmem
          rw [← hsplit] at hin
          rcases delaunay3dMidCalls_mem src ts _ hin with ⟨-, hcl, hfin⟩
          first
            | exact hcl rfl
            | exact hfin rfl
    | none =>
      cases h3 : (execCalls eng (execCalls eng (execCalls eng st0
          [EngineCall.init,
           EngineCall.setNumber "Mesh.Algorithm3D" DELAUNAY_3D]).1
          (delaunay3dMidCalls src ts)).1
          [EngineCall.clear, EngineCall.finalize]).2.2 with
      | some err =>
        have d1 := execCalls_done_of_ok eng st0 _ h1
        have d2 := execCalls_done_of_ok eng _ (delaunay3dMidCalls src ts) h2
        simp only [delaunay_3d, h1] at h ⊢
        simp only [h2] at h ⊢
        simp only [h3, Except.error.injEq] at h ⊢
        subst h
        obtain ⟨⟨pre, post, hsplit, hdone⟩, hmsg⟩ :=
          execCalls_err_elim eng _ _ c e h3
        rw [hdone, d1, d2, teardown_split pre post c hsplit hc]
        refine ⟨fun hmem => ?_, fun hmem => ?_, hmsg⟩ <;>
        · simp only [List.append_nil, List.mem_append] at hmem
          rcases hmem with hmem | hmem
          · simp at hmem
          · rcases delaunay3dMidCalls_mem src ts _ hmem with ⟨-, hcl, hfin⟩
            first
              | exact hcl rfl
              | exact hfin rfl
      | none =>
        simp only [delaunay_3d, h1] at h
        simp only [h2] at h
        simp only [h3] at h
        simp at h

/-! ## Spec-side definition and concrete sample data -/

/-- Modelled from the spec: the intended default target size, "the largest
of the three bounding-box axis extents".  Stated from the spec's words for
comparison with `defaultTargetSize2d`, which models what the code actually
does. -/
def specDefaultTargetSize (src : PolyData) : ℚ :=
  let bounds := boundsOf src.points
  max |bounds.xmax - bounds.xmin|
    (max |bounds.ymax - bounds.ymin| |bounds.zmax - bounds.zmin|)

/-- The corner points of a 10 by 10 square in the z = 0 plane. -/
def sqPoints : List P3 := [⟨0, 0, 0⟩, ⟨10, 0, 0⟩, ⟨10, 10, 0⟩, ⟨0, 10, 0⟩]

/-- A square boundary for the 2D adapter: one closed polyline cell through
the four corners and back to the first. -/
def sqPolyData : PolyData :=
  { points := sqPoints, lines := [5, 0, 1, 2, 3, 0], regular_faces := [] }

/-- A single-quad-face boundary for the 3D adapter. -/
def quadPolyData : PolyData :=
  { points := [⟨0, 0, 0⟩, ⟨1, 0, 0⟩, ⟨1, 1, 0⟩, ⟨0, 1, 0⟩],
    lines := [], regular_faces := [⟨0, 1, 2, 3⟩] }

/-- A sample `meshio` extraction result: a line block followed by a
triangle block. -/
def sampleMeshioMesh : MeshioMesh :=
  { points := [⟨0, 0, 0⟩, ⟨10, 0, 0⟩, ⟨10, 10, 0⟩, ⟨0, 10, 0⟩],
    cells := [{ cellType := "line", data := [[0, 1], [1, 2]] },
              { cellType := "triangle", data := [[0, 1, 2], [0, 2, 3]] }] }

/-- A sample extracted grid: one triangle cell, one tetrahedron cell, and
one engine-attached data array. -/
def sampleGrid : UGrid :=
  { points := [⟨0, 0, 0⟩, ⟨1, 0, 0⟩, ⟨1, 1, 0⟩, ⟨0, 1, 1⟩],
    cells := [{ cellType := 5, pointIds := [0, 1, 2] },
              { cellType := VTK_TETRA, pointIds := [0, 1, 2, 3] }],
    arrays := ["gmsh:dim_tags"] }

/-- A deterministic engine that never raises. -/
def engOk : Engine :=
  { fails := fun _ => none,
    extract := fun _ => sampleMeshioMesh,
    extractGrid := fun _ => sampleGrid }

/-- A deterministic engine whose mesh-generation call raises. -/
def engFailGen : Engine :=
  { fails := fun hist =>
      match hist.getLast? with
      | some (EngineCall.generate _) => some "PLC Error: A segment and a facet intersect"
      | _ => none,
    extract := fun _ => sampleMeshioMesh,
    extractGrid := fun _ => sampleGrid }

/-! ## Claim theorems -/

/-- C1. For every invocation of the 2D adapter `frontal_delaunay_2d`
(here: against an engine that does not raise, with an explicit target
size), the function returns normally; when the engine output contains a
triangle cell block the result is the mesh built from the first such block
— the engine's points plus that block's connectivity — and when it
contains none the result is `None` rather than an exception. -/
theorem frontal_returns_first_triangle_block_or_none (eng : Engine)
    (st0 : List EngineCall) (src : PolyData) (ts : ℚ)
    (hfail : ∀ h, eng.fails h = none) :
    (frontal_delaunay_2d eng st0 src (some ts)).2 =
      Except.ok (frontalScan (eng.extract (frontalExtractHistory src ts))) ∧
    ((∀ b ∈ (eng.extract (frontalExtractHistory src ts)).cells,
        b.cellType ≠ "triangle") →
      frontalScan (eng.extract (frontalExtractHistory src ts)) = none) ∧
    (∀ pre blk post,
      (eng.extract (frontalExtractHistory src ts)).cells = pre ++ blk :: post →
      blk.cellType = "triangle" → (∀ b ∈ pre, b.cellType ≠ "triangle") →
      frontalScan (eng.extract (frontalExtractHistory src ts)) =
        some { points := (eng.extract (frontalExtractHistory src ts)).points,
               faces := blk.data }) := by
  refine ⟨frontal_no_fail eng hfail st0 src ts, fun hnone => ?_,
    fun pre blk post hsplit hblk hpre => ?_⟩
  · unfold frontalScan
    rw [find_triangle_none _ hnone]
  · unfold frontalScan
    rw [hsplit, find_triangle_first pre blk post hpre hblk]

/-- Witness for C1 at a concrete engine and input: the sample engine
output has a line block before a triangle block, and the adapter returns
the triangle one. -/
theorem frontal_returns_first_triangle_block_or_none_witness :
    (∀ h, engOk.fails h = none) ∧
    (frontal_delaunay_2d engOk [] sqPolyData (some 2)).2 =
      Except.ok (frontalScan (engOk.extract (frontalExtractHistory sqPolyData 2))) :=
  ⟨fun _ => rfl,
    (frontal_returns_first_triangle_block_or_none engOk [] sqPolyData 2
      (fun _ => rfl)).1⟩

/-- C2. Every cell of the mesh returned by the 3D adapter
`delaunay_3d` is of tetrahedron type — the surviving cells are exactly the
engine-emitted tetrahedra, in order — and the returned mesh carries no
auxiliary data arrays. -/
theorem delaunay3d_only_tetra_and_no_arrays (eng : Engine)
    (st0 : List EngineCall) (src : PolyData) (ts : ℚ) (g : UGrid)
    (h : (delaunay_3d eng st0 src ts).2 = Except.ok (some g)) :
    (∀ c ∈ g.cells, c.cellType = VTK_TETRA) ∧ g.arrays = [] ∧
      g.cells = (eng.extractGrid (delaunay3dExtractHistory src ts)).cells.filter
        (fun c => c.cellType == VTK_TETRA) := by
  have h2 := (delaunay3d_ok eng st0 src ts (some g) h).2
  obtain rfl : g = delaunay3dPost
      (eng.extractGrid (delaunay3dExtractHistory src ts)) := by
    simpa using h2
  obtain ⟨hcells, harr⟩ :=
    delaunay3dPost_cells (eng.extractGrid (delaunay3dExtractHistory src ts))
  refine ⟨fun c hc => ?_, harr, hcells⟩
  rw [hcells] at hc
  simpa using List.of_mem_filter hc

/-- Witness for C2: the sample engine emits a triangle cell and a
tetrahedron cell plus a data array; the returned grid keeps only the
tetrahedron and no arrays. -/
theorem delaunay3d_only_tetra_and_no_arrays_witness :
    (delaunay_3d engOk [] quadPolyData 1).2 =
      Except.ok (some (delaunay3dPost sampleGrid)) ∧
    (∀ c ∈ (delaunay3dPost sampleGrid).cells, c.cellType = VTK_TETRA) ∧
      (delaunay3dPost sampleGrid).arrays = [] :=
  ⟨rfl,
    (delaunay3d_only_tetra_and_no_arrays engOk [] quadPolyData 1
      (delaunay3dPost sampleGrid) rfl).1,
    (delaunay3d_only_tetra_and_no_arrays engOk [] quadPolyData 1
      (delaunay3dPost sampleGrid) rfl).2.1⟩

/-- C3, code bug. With `target_size=None` the 2D adapter does not use
the largest bounding-box axis extent as the default: the line
`np.max(a, b, c)` binds the second and third extents to `np.max`'s `axis`
and `out` parameters and raises `TypeError`, so the claimed default (10
for the sample 10 by 10 square) is never computed and no point is
registered. -/
theorem frontal_default_target_size_raises :
    (frontal_delaunay_2d engOk [] sqPolyData none).2 =
      Except.error (PyErr.typeError npMaxTypeErrorMsg) ∧
    (frontal_delaunay_2d engOk [] sqPolyData none).1 =
      [EngineCall.init,
       EngineCall.setNumber "Mesh.Algorithm" FRONTAL_DELAUNAY_2D] ∧
    specDefaultTargetSize sqPolyData = 10 :=
  ⟨rfl, rfl, by simp [specDefaultTargetSize, boundsOf, sqPolyData, sqPoints]⟩

/-- C9. Whenever the 3D adapter returns normally, the returned value
is a mesh and never `None`, despite the `pv.UnstructuredGrid | None`
annotation. -/
theorem delaunay3d_never_none (eng : Engine) (st0 : List EngineCall)
    (src : PolyData) (ts : ℚ) (r : Option UGrid)
    (h : (delaunay_3d eng st0 src ts).2 = Except.ok r) : ∃ g, r = some g :=
  ⟨delaunay3dPost (eng.extractGrid (delaunay3dExtractHistory src ts)),
    (delaunay3d_ok eng st0 src ts r h).2⟩

/-- Witness for C9 at a concrete engine and input. -/
theorem delaunay3d_never_none_witness :
    ∃ g, some (delaunay3dPost sampleGrid) = some g :=
  delaunay3d_never_none engOk [] quadPolyData 1
    (some (delaunay3dPost sampleGrid)) rfl

/-- C4, counterexample. The 3D adapter registers the first edge of
its first quad face with tag `0 * 4 + 0 = 0`, which is not a 1-based
(strictly positive) identifier. -/
theorem registration_tag_zero_counterexample :
    EngineCall.addLine 1 2 0 ∈ delaunay3dFullTrace quadPolyData 1 ∧
      regTag (EngineCall.addLine 1 2 0) = some 0 ∧ ¬ 1 ≤ (0 : Nat) :=
  ⟨by decide, rfl, by decide⟩

/-- C4, amended. Point registrations pass tag `index + 1` in both
adapters and every registration tag in the 2D adapter is strictly
positive; in the 3D adapter every non-line registration tag is strictly
positive, but the line registrations of face `i` use tags `i * 4 + k`
(`k < 4`), so the very first line entity is registered with tag 0. -/
theorem registration_tags_amended :
    (∀ (src : PolyData) (ts : ℚ) (c : EngineCall) (t : Nat),
      c ∈ frontalFullTrace src ts → regTag c = some t → 1 ≤ t) ∧
    (∀ (src : PolyData) (ts : ℚ) (i : Nat) (p : P3),
      (i, p) ∈ enumFrom 0 src.points →
      EngineCall.addPoint p.x p.y p.z ts (i + 1) ∈ frontalFullTrace src ts ∧
      EngineCall.addPoint p.x p.y p.z ts (i + 1) ∈ delaunay3dFullTrace src ts) ∧
    (∀ (src : PolyData) (ts : ℚ) (c : EngineCall) (t : Nat),
      c ∈ delaunay3dFullTrace src ts → regTag c = some t →
      isAddLine c = false → 1 ≤ t) ∧
    (∀ (src : PolyData) (ts : ℚ) (a b t : Nat),
      EngineCall.addLine a b t ∈ delaunay3dFullTrace src ts →
      ∃ i k, i < src.regular_faces.length ∧ k < 4 ∧ t = i * 4 + k) := by
  refine ⟨?_, ?_, ?_, ?_⟩
  · intro src ts c t hc htag
    unfold frontalFullTrace frontalExtractHistory frontalMidCalls at hc
    rcases List.mem_append.mp hc with hc | hc
    · rcases List.mem_cons.mp hc with rfl | hc
      · simp [regTag] at htag
      · rcases List.mem_cons.mp hc with rfl | hc
        · simp [regTag] at htag
        · rcases List.mem_append.mp hc with hc | hc
          · rcases List.mem_append.mp hc with hc | hc
            · obtain ⟨ip, -, rfl⟩ := List.mem_map.mp hc
              simp only [regTag, Option.some.injEq] at htag
              omega
            · unfold lineCalls2d at hc
              obtain ⟨i, -, rfl⟩ := List.mem_map.mp hc
              simp only [regTag, Option.some.injEq] at htag
              omega
          · simp only [List.mem_cons, List.not_mem_nil, or_false] at hc
            rcases hc with rfl | rfl | rfl | rfl | rfl
            · simp only [regTag, Option.some.injEq] at htag
              omega
            · simp only [regTag, Option.some.injEq] at htag
              omega
            · simp [regTag] at htag
            · simp [regTag] at htag
            · simp [regTag] at htag
    · simp only [List.mem_cons, List.not_mem_nil, or_false] at hc
      rcases hc with rfl | rfl
      · simp [regTag] at htag
      · simp [regTag] at htag
  · intro src ts i p hp
    have hmem : EngineCall.addPoint p.x p.y p.z ts (i + 1) ∈
        pointCalls src.points ts := List.mem_map.mpr ⟨(i, p), hp, rfl⟩
    constructor
    · unfold frontalFullTrace frontalExtractHistory frontalMidCalls
      exact List.mem_append_left _ (List.mem_cons_of_mem _
        (List.mem_cons_of_mem _ (List.mem_append_left _
          (List.mem_append_left _ hmem))))
    · unfold delaunay3dFullTrace delaunay3dExtractHistory delaunay3dMidCalls
      exact List.mem_append_left _ (List.mem_cons_of_mem _
        (List.mem_cons_of_mem _ (List.mem_append_left _
          (List.mem_append_left _ hmem))))
  · intro src ts c t hc htag hline
    unfold delaunay3dFullTrace delaunay3dExtractHistory delaunay3dMidCalls at hc
    rcases List.mem_append.mp hc with hc | hc
    · rcases List.mem_cons.mp hc with rfl | hc
      · simp [regTag] at htag
      · rcases List.mem_cons.mp hc with rfl | hc
        · simp [regTag] at htag
        · rcases List.mem_append.mp hc with hc | hc
          · rcases List.mem_append.mp hc with hc | hc
            · obtain ⟨ip, -, rfl⟩ := List.mem_map.mp hc
              simp only [regTag, Option.some.injEq] at htag
              omega
            · obtain ⟨p, -, hf⟩ := List.mem_bind.mp hc
              unfold faceCalls at hf
              simp only [List.mem_cons, List.not_mem_nil, or_false] at hf
              rcases hf with rfl | rfl | rfl | rfl | rfl | rfl | rfl | rfl
              · simp [isAddLine] at hline
              · simp [isAddLine] at hline
              · simp [isAddLine] at hline
              · simp [isAddLine] at hline
              · simp only [regTag, Option.some.injEq] at htag
                omega
              · simp only [regTag, Option.some.injEq] at htag
                omega
              · simp [regTag] at htag
              · simp [regTag] at htag
          · simp only [List.mem_cons, List.not_mem_nil, or_false] at hc
            rcases hc with rfl | rfl | rfl | rfl | rfl
            · simp only [regTag, Option.some.injEq] at htag
              omega
            · simp only [regTag, Option.some.injEq] at htag
              omega
            · simp [regTag] at htag
            · simp [regTag] at htag
            · simp [regTag] at htag
    · simp only [List.mem_cons, List.not_mem_nil, or_false] at hc
      rcases hc with rfl | rfl
      · simp [regTag] at htag
      · simp [regTag] at htag
  · intro src ts a b t hc
    unfold delaunay3dFullTrace delaunay3dExtractHistory delaunay3dMidCalls at hc
    rcases List.mem_append.mp hc with hc | hc
    · rcases List.mem_cons.mp hc with hinit | hc
      · simp at hinit
      · rcases List.mem_cons.mp hc with hset | hc
        · simp at hset
        · rcases List.mem_append.mp hc with hc | hc
          · rcases List.mem_append.mp hc with hc | hc
            · obtain ⟨ip, -, hpt⟩ := List.mem_map.mp hc
              simp at hpt
            · obtain ⟨p, hpf, hf⟩ := List.mem_bind.mp hc
              have hlt : p.1 < src.regular_faces.length := by
                simpa using mem_enumFrom_lt 0 src.regular_faces p.1 p.2 hpf
              unfold faceCalls at hf
              simp only [List.mem_cons, List.not_mem_nil, or_false] at hf
              rcases hf with hf | hf | hf | hf | hf | hf | hf | hf
              · simp only [EngineCall.addLine.injEq] at hf
                exact ⟨p.1, 0, hlt, by omega, hf.2.2⟩
              · simp only [EngineCall.addLine.injEq] at hf
                exact ⟨p.1, 1, hlt, by omega, hf.2.2⟩
              · simp only [EngineCall.addLine.injEq] at hf
                exact ⟨p.1, 2, hlt, by omega, hf.2.2⟩
              · simp only [EngineCall.addLine.injEq] at hf
                exact ⟨p.1, 3, hlt, by omega, hf.2.2⟩
              · simp at hf
              · simp at hf
              · simp at hf
              · simp at hf
          · simp only [List.mem_cons, List.not_mem_nil, or_false] at hc
            rcases hc with hc | hc | hc | hc | hc
            all_goals simp at hc
    · simp only [List.mem_cons, List.not_mem_nil, or_false] at hc
      rcases hc with hc | hc
      · simp at hc
      · simp at hc

/-- Witness for the amended C4: the curve loop of the sample square is
registered with the positive tag 1, and the 3D sample's third edge
registration carries tag `0 * 4 + 2`. -/
theorem registration_tags_amended_witness :
    EngineCall.addCurveLoop [1, 2, 3, 4] 1 ∈ frontalFullTrace sqPolyData 2 ∧
      (1 : Nat) ≤ 1 ∧
      ∃ i k, i < quadPolyData.regular_faces.length ∧ k < 4 ∧ 2 = i * 4 + k :=
  ⟨by decide,
    registration_tags_amended.1 sqPolyData 2
      (EngineCall.addCurveLoop [1, 2, 3, 4] 1) 1 (by decide) rfl,
    registration_tags_amended.2.2.2 quadPolyData 1 3 4 2 (by decide)⟩

/-- C5. For an input boundary whose first polyline cell lists `n`
point indices, the 2D adapter's call sequence registers exactly `n - 1`
line entities — one per consecutive index pair of that polyline, in order
— then exactly one curve loop holding all `n - 1` line tags, then exactly
one plane surface bounded by that loop, then synchronizes and requests a
2-dimensional mesh. -/
theorem frontal_polyline_registration (points : List P3) (faces : List Face4)
    (ts : ℚ) (n : Nat) (idxs rest : List Nat) (hlen : idxs.length = n) :
    frontalFullTrace ⟨points, n :: idxs ++ rest, faces⟩ ts =
      [EngineCall.init,
       EngineCall.setNumber "Mesh.Algorithm" FRONTAL_DELAUNAY_2D] ++
      pointCalls points ts ++
      (List.range (n - 1)).map (fun i =>
        EngineCall.addLine (idxs.getD i 0 + 1) (idxs.getD (i + 1) 0 + 1)
          (i + 1)) ++
      [EngineCall.addCurveLoop ((List.range (n - 1)).map (· + 1)) 1,
       EngineCall.addPlaneSurface [1] 1, EngineCall.synchronize,
       EngineCall.generate 2, EngineCall.extractToMeshio,
       EngineCall.clear, EngineCall.finalize] ∧
    ((List.range (n - 1)).map (fun i =>
        EngineCall.addLine (idxs.getD i 0 + 1) (idxs.getD (i + 1) 0 + 1)
          (i + 1))).length = n - 1 := by
  constructor
  · show (EngineCall.init ::
        EngineCall.setNumber "Mesh.Algorithm" FRONTAL_DELAUNAY_2D ::
        (pointCalls points ts ++ lineCalls2d (n :: idxs ++ rest) ++
          [EngineCall.addCurveLoop
            (rangeFrom1 (((n :: idxs ++ rest) : List Nat).getD 0 0)) 1,
           EngineCall.addPlaneSurface [1] 1, EngineCall.synchronize,
           EngineCall.generate 2, EngineCall.extractToMeshio])) ++
      [EngineCall.clear, EngineCall.finalize] = _
    rw [lineCalls2d_eq n idxs rest hlen,
      show ((n :: idxs ++ rest) : List Nat).getD 0 0 = n from rfl]
    simp only [rangeFrom1, List.cons_append, List.append_assoc,
      List.nil_append, List.append_nil]
  · simp

/-- Witness for C5 at the sample square: the closed polyline lists 5
indices and yields 4 line registrations. -/
theorem frontal_polyline_registration_witness :
    (([0, 1, 2, 3, 0] : List Nat)).length = 5 ∧
    ((List.range (5 - 1)).map (fun i =>
      EngineCall.addLine ((([0, 1, 2, 3, 0] : List Nat)).getD i 0 + 1)
        ((([0, 1, 2, 3, 0] : List Nat)).getD (i + 1) 0 + 1)
        (i + 1))).length = 5 - 1 :=
  ⟨by decide,
    (frontal_polyline_registration sqPoints [] 2 5 [0, 1, 2, 3, 0] []
      (by decide)).2⟩

/-- C6. On every invocation of either adapter that returns normally,
the performed engine calls start with exactly one `initialize`, end with
`clear` then `finalize` (each performed exactly once), and every other
call lies strictly between them. -/
theorem engine_lifecycle_bracketed :
    (∀ (eng : Engine) (st0 : List EngineCall) (src : PolyData)
        (tsOpt : Option ℚ) (r : Option TriMesh),
      (frontal_delaunay_2d eng st0 src tsOpt).2 = Except.ok r →
      ∃ mid, (frontal_delaunay_2d eng st0 src tsOpt).1 =
          EngineCall.init :: mid ++ [EngineCall.clear, EngineCall.finalize] ∧
        EngineCall.init ∉ mid ∧ EngineCall.clear ∉ mid ∧
        EngineCall.finalize ∉ mid) ∧
    (∀ (eng : Engine) (st0 : List EngineCall) (src : PolyData) (ts : ℚ)
        (r : Option UGrid),
      (delaunay_3d eng st0 src ts).2 = Except.ok r →
      ∃ mid, (delaunay_3d eng st0 src ts).1 =
          EngineCall.init :: mid ++ [EngineCall.clear, EngineCall.finalize] ∧
        EngineCall.init ∉ mid ∧ EngineCall.clear ∉ mid ∧
        EngineCall.finalize ∉ mid) := by
  constructor
  · intro eng st0 src tsOpt r h
    cases tsOpt with
    | none =>
      obtain ⟨e, he⟩ := frontal_none_raises eng st0 src
      rw [he] at h
      exact absurd h (by simp)
    | some ts =>
      refine ⟨EngineCall.setNumber "Mesh.Algorithm" FRONTAL_DELAUNAY_2D ::
        frontalMidCalls src ts, ?_, ?_, ?_, ?_⟩
      · rw [(frontal_ok eng st0 src ts r h).1]
        simp [frontalFullTrace, frontalExtractHistory]
      · intro hmem
        rcases List.mem_cons.mp hmem with heq | hmem
        · exact absurd heq (by simp)
        · exact (frontalMidCalls_mem src ts _ hmem).1 rfl
      · intro hmem
        rcases List.mem_cons.mp hmem with heq | hmem
        · exact absurd heq (by simp)
        · exact (frontalMidCalls_mem src ts _ hmem).2.1 rfl
      · intro hmem
        rcases List.mem_cons.mp hmem with heq | hmem
        · exact absurd heq (by simp)
        · exact (frontalMidCalls_mem src ts _ hmem).2.2 rfl
  · intro eng st0 src ts r h
    refine ⟨EngineCall.setNumber "Mesh.Algorithm3D" DELAUNAY_3D ::
      delaunay3dMidCalls src ts, ?_, ?_, ?_, ?_⟩
    · rw [(delaunay3d_ok eng st0 src ts r h).1]
      simp [delaunay3dFullTrace, delaunay3dExtractHistory]
    · intro hmem
      rcases List.mem_cons.mp hmem with heq | hmem
      · exact absurd heq (by simp)
      · exact (delaunay3dMidCalls_mem src ts _ hmem).1 rfl
    · intro hmem
      rcases List.mem_cons.mp hmem with heq | hmem
      · exact absurd heq (by simp)
      · exact (delaunay3dMidCalls_mem src ts _ hmem).2.1 rfl
    · intro hmem
      rcases List.mem_cons.mp hmem with heq | hmem
      · exact absurd heq (by simp)
      · exact (delaunay3dMidCalls_mem src ts _ hmem).2.2 rfl

/-- Witness for C6 at a concrete engine and input. -/
theorem engine_lifecycle_bracketed_witness :
    (frontal_delaunay_2d engOk [] sqPolyData (some 2)).2 =
      Except.ok (some { points := sampleMeshioMesh.points,
                        faces := [[0, 1, 2], [0, 2, 3]] }) ∧
    ∃ mid, (frontal_delaunay_2d engOk [] sqPolyData (some 2)).1 =
        EngineCall.init :: mid ++ [EngineCall.clear, EngineCall.finalize] ∧
      EngineCall.init ∉ mid ∧ EngineCall.clear ∉ mid ∧
      EngineCall.finalize ∉ mid :=
  ⟨rfl, engine_lifecycle_bracketed.1 engOk [] sqPolyData (some 2)
    (some { points := sampleMeshioMesh.points,
            faces := [[0, 1, 2], [0, 2, 3]] }) rfl⟩

/-- C7. If an engine call raises during either adapter (any failing
call short of the terminal `finalize` itself), the exception escapes to
the caller unmodified — its message is exactly the one the engine reported
— and the calls completed before it include neither `clear` nor
`finalize`: the engine session is left dangling. -/
theorem engine_exception_dangles :
    (∀ (eng : Engine) (st0 : List EngineCall) (src : PolyData)
        (tsOpt : Option ℚ) (c : EngineCall) (e : String),
      (frontal_delaunay_2d eng st0 src tsOpt).2 =
        Except.error (PyErr.engineError c e) →
      c ≠ EngineCall.finalize →
      EngineCall.clear ∉ (frontal_delaunay_2d eng st0 src tsOpt).1 ∧
        EngineCall.finalize ∉ (frontal_delaunay_2d eng st0 src tsOpt).1 ∧
        ∃ hist, eng.fails hist = some e) ∧
    (∀ (eng : Engine) (st0 : List EngineCall) (src : PolyData) (ts : ℚ)
        (c : EngineCall) (e : String),
      (delaunay_3d eng st0 src ts).2 =
        Except.error (PyErr.engineError c e) →
      c ≠ EngineCall.finalize →
      EngineCall.clear ∉ (delaunay_3d eng st0 src ts).1 ∧
        EngineCall.finalize ∉ (delaunay_3d eng st0 src ts).1 ∧
        ∃ hist, eng.fails hist = some e) :=
  ⟨fun eng st0 src tsOpt c e h hc => frontal_err eng st0 src tsOpt c e h hc,
   fun eng st0 src ts c e h hc => delaunay3d_err eng st0 src ts c e h hc⟩

/-- Witness for C7: an engine whose `generate` call raises leaves both
adapters' sessions neither cleared nor finalized. -/
theorem engine_exception_dangles_witness :
    (frontal_delaunay_2d engFailGen [] sqPolyData (some 2)).2 =
      Except.error (PyErr.engineError (EngineCall.generate 2)
        "PLC Error: A segment and a facet intersect") ∧
    EngineCall.clear ∉ (frontal_delaunay_2d engFailGen [] sqPolyData (some 2)).1 ∧
    EngineCall.finalize ∉
      (frontal_delaunay_2d engFailGen [] sqPolyData (some 2)).1 ∧
    EngineCall.clear ∉ (delaunay_3d engFailGen [] quadPolyData 1).1 :=
  ⟨rfl,
    (engine_exception_dangles.1 engFailGen [] sqPolyData (some 2)
      (EngineCall.generate 2) "PLC Error: A segment and a facet intersect"
      rfl (by decide)).1,
    (engine_exception_dangles.1 engFailGen [] sqPolyData (some 2)
      (EngineCall.generate 2) "PLC Error: A segment and a facet intersect"
      rfl (by decide)).2.1,
    (engine_exception_dangles.2 engFailGen [] quadPolyData 1
      (EngineCall.generate 3) "PLC Error: A segment and a facet intersect"
      rfl (by decide)).1⟩

/-- C8. Both adapters are deterministic and stateless: with the same
deterministic engine behavior and identical inputs and target size, the
performed call sequence and the returned result are identical whatever
engine state an earlier invocation left behind (the opening `initialize`
starts a fresh session), so two like invocations yield equal meshes —
same vertex count and same cell count — and neither depends on the
other. -/
theorem adapters_deterministic_stateless :
    (∀ (eng : Engine) (st1 st2 : List EngineCall) (src : PolyData)
        (tsOpt : Option ℚ),
      frontal_delaunay_2d eng st1 src tsOpt =
        frontal_delaunay_2d eng st2 src tsOpt) ∧
    (∀ (eng : Engine) (st1 st2 : List EngineCall) (src : PolyData) (ts : ℚ),
      delaunay_3d eng st1 src ts = delaunay_3d eng st2 src ts) := by
  constructor
  · intro eng st1 st2 src tsOpt
    unfold frontal_delaunay_2d
    rw [execCalls_init_state_irrel eng st1 st2]
  · intro eng st1 st2 src ts
    unfold delaunay_3d
    rw [execCalls_init_state_irrel eng st1 st2]

/-- C10. The 2D adapter reads only the first line cell of the input
connectivity: replacing everything after that cell changes nothing, and
the line registrations are exactly the consecutive pairs of that cell —
no closing line from the last listed point back to the first is added. -/
theorem frontal_reads_only_first_line_cell (eng : Engine)
    (st0 : List EngineCall) (points : List P3) (faces : List Face4)
    (tsOpt : Option ℚ) (ts : ℚ) (n : Nat) (idxs rest rest' : List Nat)
    (hlen : idxs.length = n) :
    frontal_delaunay_2d eng st0 ⟨points, n :: idxs ++ rest, faces⟩ tsOpt =
      frontal_delaunay_2d eng st0 ⟨points, n :: idxs ++ rest', faces⟩ tsOpt ∧
    (frontalMidCalls ⟨points, n :: idxs ++ rest, faces⟩ ts).filter isAddLine =
      (List.range (n - 1)).map (fun i =>
        EngineCall.addLine (idxs.getD i 0 + 1) (idxs.getD (i + 1) 0 + 1)
          (i + 1)) := by
  constructor
  · have hmid : ∀ t : ℚ,
        frontalMidCalls ⟨points, n :: idxs ++ rest, faces⟩ t =
          frontalMidCalls ⟨points, n :: idxs ++ rest', faces⟩ t := by
      intro t
      show pointCalls points t ++ lineCalls2d (n :: idxs ++ rest) ++
          [EngineCall.addCurveLoop
            (rangeFrom1 (((n :: idxs ++ rest) : List Nat).getD 0 0)) 1,
           EngineCall.addPlaneSurface [1] 1, EngineCall.synchronize,
           EngineCall.generate 2, EngineCall.extractToMeshio] =
        pointCalls points t ++ lineCalls2d (n :: idxs ++ rest') ++
          [EngineCall.addCurveLoop
            (rangeFrom1 (((n :: idxs ++ rest') : List Nat).getD 0 0)) 1,
           EngineCall.addPlaneSurface [1] 1, EngineCall.synchronize,
           EngineCall.generate 2, EngineCall.extractToMeshio]
      rw [lineCalls2d_eq n idxs rest hlen, lineCalls2d_eq n idxs rest' hlen,
        show ((n :: idxs ++ rest) : List Nat).getD 0 0 = n from rfl,
        show ((n :: idxs ++ rest') : List Nat).getD 0 0 = n from rfl]
    have hres : resolveTargetSize2d ⟨points, n :: idxs ++ rest, faces⟩ tsOpt =
        resolveTargetSize2d ⟨points, n :: idxs ++ rest', faces⟩ tsOpt := rfl
    simp only [frontal_delaunay_2d, hmid, hres]
  · have h1 : (pointCalls points ts).filter isAddLine = [] :=
      List.filter_eq_nil_iff.mpr (fun c hcmem => by
        obtain ⟨ip, -, rfl⟩ := List.mem_map.mp hcmem
        simp [isAddLine])
    have h2 : (lineCalls2d (n :: idxs ++ rest)).filter isAddLine =
        lineCalls2d (n :: idxs ++ rest) :=
      List.filter_eq_self.mpr (fun c hcmem => by
        unfold lineCalls2d at hcmem
        obtain ⟨i, -, rfl⟩ := List.mem_map.mp hcmem
        simp [isAddLine])
    show ((pointCalls points ts ++ lineCalls2d (n :: idxs ++ rest) ++
      [EngineCall.addCurveLoop
        (rangeFrom1 ((n :: idxs ++ rest).getD 0 0)) 1,
       EngineCall.addPlaneSurface [1] 1, EngineCall.synchronize,
       EngineCall.generate 2, EngineCall.extractToMeshio]).filter isAddLine) = _
    rw [List.filter_append, List.filter_append, h1, h2]
    show [] ++ lineCalls2d (n :: idxs ++ rest) ++ [] = _
    rw [List.nil_append, List.append_nil, lineCalls2d_eq n idxs rest hlen]

/-- Witness for C10: appending a second line cell to the sample square's
connectivity leaves the invocation unchanged. -/
theorem frontal_reads_only_first_line_cell_witness :
    frontal_delaunay_2d engOk []
        ⟨sqPoints, 5 :: [0, 1, 2, 3, 0] ++ [], []⟩ (some 2) =
      frontal_delaunay_2d engOk []
        ⟨sqPoints, 5 :: [0, 1, 2, 3, 0] ++ [3, 1, 2, 0], []⟩ (some 2) :=
  (frontal_reads_only_first_line_cell engOk [] sqPoints [] (some 2) 2 5
    [0, 1, 2, 3, 0] [] [3, 1, 2, 0] (by decide)).1

end Pvgmsh
